import Mathlib

/-!
Shallow embedding of the change-detection and notification-dispatch engine
of the kv-ee telegram bot (files `telegram_bot.py`, `database.py`,
`kv_scraper.py`), together with theorems settling the frozen claims about
its specification.

Modelling conventions:
* Python `int` values (prices, room counts, chat ids) are `Int`; listing
  identifiers are the nonnegative integers `Nat` (they are parsed with
  `int(...)` from positive markup ids).
* Python `float` areas are modelled as `Rat`: the code only ever compares
  areas, never does arithmetic on them, so any linear order is faithful.
* An optional field of the `PropertyData` dataclass is an `Option`.
* Python truthiness tests on an optional numeric field (`listing.rooms and …`)
  hold exactly when the field is present and nonzero.
* A Python `dict` iterated in insertion order is an association list.
* A Python `set` is a `Finset`; where the code converts a set to a list
  (`list(self.seen_listings)`), the enumeration order is unspecified, so the
  conversion is modelled relationally by an arbitrary duplicate-free
  enumeration of the set.
* A network call that may raise is an `Except` value passed in as data;
  `try/except` blocks become pattern matches on it.
-/

/-- Notification cadence of a subscriber (`NotificationMode` enum in
`telegram_bot.py`). -/
inductive NotificationMode where
  | immediate
  | daily
  | weekly
deriving DecidableEq, Repr

/-- One listing, after the scraper has parsed it: the `PropertyData`
dataclass of `kv_scraper.py`.  `id` and `price` are always present; the
remaining numeric fields default to `None`. -/
structure PropertyData where
  id : Nat
  url : String
  price : Int
  rooms : Option Int := none
  area : Option Rat := none
  year_built : Option Int := none
  condition : Option Int := none
  story : Option Int := none
  energy_label : Option String := none
  cost_summer : Option Int := none
  cost_winter : Option Int := none
  coordinates : Option (Rat × Rat) := none
  description : Option String := none
deriving DecidableEq, Repr

/-- A subscriber's filter mapping.  In the source this is a Python dict with
optional keys `price_min`, `price_max`, `area_min`, `area_max`, `rooms_min`,
`rooms_max`; `some v` models the key being present with threshold `v`. -/
structure Filters where
  price_min : Option Int := none
  price_max : Option Int := none
  area_min : Option Rat := none
  area_max : Option Rat := none
  rooms_min : Option Int := none
  rooms_max : Option Int := none
deriving DecidableEq, Repr

/-- The filter dict with no keys. -/
def emptyFilters : Filters := {}

/-- The `UserPreferences` dataclass of `telegram_bot.py`.  The timestamp
stored in `last_notification` (`datetime.now()` in the source) is abstracted
to a `Nat` supplied by the caller as "now". -/
structure UserPreferences where
  chat_id : Int
  notification_mode : NotificationMode := NotificationMode.immediate
  last_notification : Option Nat := none
  filters : Filters := emptyFilters
  subscribed : Bool := true
deriving DecidableEq, Repr

/-! Section: Filter engine (`TelegramBot._filter_listings`)

Each `fails…` function is one of the six `if … : match = False` conditions of
the source, in order.  A bound check on `area` or `rooms` first tests the
listing field's truthiness (`listing.area and listing.area < …`), so an
absent or zero field never fails the check; the `price` checks have no such
guard. -/

/-- Source check `"price_min" in filters and listing.price < filters["price_min"]`. -/
def failsPriceMin (l : PropertyData) (f : Filters) : Bool :=
  match f.price_min with
  | some v => decide (l.price < v)
  | none => false

/-- Source check `"price_max" in filters and listing.price > filters["price_max"]`. -/
def failsPriceMax (l : PropertyData) (f : Filters) : Bool :=
  match f.price_max with
  | some v => decide (l.price > v)
  | none => false

/-- Source check `"area_min" in filters and listing.area and listing.area < filters["area_min"]`. -/
def failsAreaMin (l : PropertyData) (f : Filters) : Bool :=
  match f.area_min, l.area with
  | some v, some a => decide (a ≠ 0) && decide (a < v)
  | _, _ => false

/-- Source check `"area_max" in filters and listing.area and listing.area > filters["area_max"]`. -/
def failsAreaMax (l : PropertyData) (f : Filters) : Bool :=
  match f.area_max, l.area with
  | some v, some a => decide (a ≠ 0) && decide (a > v)
  | _, _ => false

/-- Source check `"rooms_min" in filters and listing.rooms and listing.rooms < filters["rooms_min"]`. -/
def failsRoomsMin (l : PropertyData) (f : Filters) : Bool :=
  match f.rooms_min, l.rooms with
  | some v, some r => decide (r ≠ 0) && decide (r < v)
  | _, _ => false

/-- Source check `"rooms_max" in filters and listing.rooms and listing.rooms > filters["rooms_max"]`. -/
def failsRoomsMax (l : PropertyData) (f : Filters) : Bool :=
  match f.rooms_max, l.rooms with
  | some v, some r => decide (r ≠ 0) && decide (r > v)
  | _, _ => false

/-- The per-listing `match` flag of `_filter_listings`: `match` starts `True`
and each failing bound sets it `False`. -/
def listing_matches (l : PropertyData) (f : Filters) : Bool :=
  !failsPriceMin l f && !failsPriceMax l f &&
  !failsAreaMin l f && !failsAreaMax l f &&
  !failsRoomsMin l f && !failsRoomsMax l f

/-- Embedding of `TelegramBot._filter_listings`: keep, in order, the listings whose
`match` flag survived all six bound checks. -/
def filter_listings (listings : List PropertyData) (f : Filters) :
    List PropertyData :=
  listings.filter (fun l => listing_matches l f)

/-! Section: Seen-set store (`Database.mark_seen`, `Database.is_seen`)

`Database.mark_seen` adds the id to the Python set `self.seen_listings` and
then, if its size exceeds 10000, replaces it with
`set(list(self.seen_listings)[-10000:])`.  The order in which
`list(…)` enumerates a Python set is unspecified, so `mark_seen` is modelled
as a relation quantifying over every duplicate-free enumeration of the
post-insertion set; the slice itself, `prune_seen`, is executable. -/

/-- The cap hard-coded in `Database.mark_seen` (`> 10000`). -/
def SEEN_CAP : Nat := 10000

/-- The slice `lst[-10000:]` applied when the set has grown past the cap:
keep the last `SEEN_CAP` elements of the enumeration, else keep it whole. -/
def prune_seen (enum : List Nat) : List Nat :=
  if enum.length > SEEN_CAP then enum.drop (enum.length - SEEN_CAP) else enum

/-- The list `enum` is a possible result of Python's `list(s)`: duplicate-free and
containing exactly the elements of `s`. -/
def IsEnumOf (enum : List Nat) (s : Finset Nat) : Prop :=
  enum.Nodup ∧ ∀ x, x ∈ enum ↔ x ∈ s

/-- One call `Database.mark_seen(id)` relates the prior set `s` to every set
`s'` reachable by inserting `id` and pruning along some enumeration order. -/
def mark_seen_rel (s : Finset Nat) (id : Nat) (s' : Finset Nat) : Prop :=
  ∃ enum : List Nat, IsEnumOf enum (insert id s) ∧ s' = (prune_seen enum).toFinset

/-- A finite sequence of `mark_seen` calls, one per element of `ids`. -/
def mark_seen_chain (s : Finset Nat) : List Nat → Finset Nat → Prop
  | [], s' => s' = s
  | id :: ids, s' => ∃ t, mark_seen_rel s id t ∧ mark_seen_chain t ids s'

/-- Embedding of `Database.is_seen`: membership in the seen set. -/
def is_seen (s : Finset Nat) (id : Nat) : Bool :=
  decide (id ∈ s)

/-! Section: Fetch cycle (`TelegramBot._check_new_listings` and the scraper)

The dedup loop of `_check_new_listings` walks the source's listings in
order; a listing whose id is not yet in `self.seen_listings` (the bot's
in-memory Python set) is appended to `new_listings` and its id added to the
set immediately, so a later duplicate of the same id in the same batch is
already seen. -/

/-- The dedup loop of `_check_new_listings`: returns the `new_listings`
accumulator and the updated seen set. -/
def check_new_listings (seen : Finset Nat) :
    List PropertyData → List PropertyData × Finset Nat
  | [] => ([], seen)
  | l :: rest =>
    if l.id ∈ seen then
      check_new_listings seen rest
    else
      let r := check_new_listings (insert l.id seen) rest
      (l :: r.1, r.2)

/-- Result of the HTTP GET on the search URL, as far as
`KVeeScraper.get_owner_direct_listings` inspects it: the `response.ok` flag
and the listings that parsing the body yields. -/
structure HttpResp where
  ok : Bool
  items : List PropertyData
deriving DecidableEq, Repr

/-- Embedding of `KVeeScraper.get_owner_direct_listings`, with the network call passed in
as data: a raised transport/parse error (`Except.error`) is caught by the
scraper's `try/except` and yields `[]`; a response with `not response.ok`
yields `[]`; otherwise the parsed listings are returned. -/
def get_owner_direct_listings (resp : Except Unit HttpResp) :
    List PropertyData :=
  match resp with
  | Except.error _ => []
  | Except.ok r => if r.ok then r.items else []

/-- One fetch cycle: `_check_new_listings` calling the scraper and then
running its dedup loop.  The body of `_check_new_listings` is wrapped in
`try/except` returning `[]`; since `get_owner_direct_listings` already
absorbs every source failure into `[]`, no exception reaches that handler on
the source-failure paths, and the function is total by construction. -/
def fetch_cycle (resp : Except Unit HttpResp) (seen : Finset Nat) :
    List PropertyData × Finset Nat :=
  check_new_listings seen (get_owner_direct_listings resp)

/-! Section: Notification dispatcher (`TelegramBot._send_notifications`)

The Messaging Channel (`self.bot.send_message`, which may raise) is passed
in as an oracle `ch : chat id → listing id → Bool`, `true` meaning the send
succeeds.  A dispatch produces the list of `(chat_id, listing id)` pairs
actually delivered, in order, together with the updated user records. -/

/-- The inner `for listing in filtered_listings` send loop for one user:
returns the delivered pairs and whether the loop ran to completion (a
`false` from the channel is a raised exception: the failing send delivers
nothing and aborts the rest of this user's loop). -/
def send_loop (ch : Int → Nat → Bool) (cid : Int) :
    List PropertyData → List (Int × Nat) × Bool
  | [] => ([], true)
  | l :: rest =>
    if ch cid l.id then
      let r := send_loop ch cid rest
      ((cid, l.id) :: r.1, r.2)
    else ([], false)

/-- Embedding of `TelegramBot._send_notifications`: iterate over all users in insertion
order; skip the unsubscribed; filter the listings per user; skip on an empty
match; send each matched listing; update `last_notification` only when the
whole send loop succeeded; a per-user exception is caught inside the loop,
so the remaining users are still processed. -/
def send_notifications (ch : Int → Nat → Bool) (now : Nat)
    (listings : List PropertyData) :
    List (Int × UserPreferences) → List (Int × Nat) × List (Int × UserPreferences)
  | [] => ([], [])
  | (cid, p) :: rest =>
    if p.subscribed then
      let fl := filter_listings listings p.filters
      if fl.isEmpty then
        let r := send_notifications ch now listings rest
        (r.1, (cid, p) :: r.2)
      else
        let sl := send_loop ch cid fl
        let p' := if sl.2 then { p with last_notification := some now } else p
        let r := send_notifications ch now listings rest
        (sl.1 ++ r.1, (cid, p') :: r.2)
    else
      let r := send_notifications ch now listings rest
      (r.1, (cid, p) :: r.2)

/-- The summary loops of `_send_daily_notifications` and
`_send_weekly_notifications` (identical but for the mode tested and the
truncation count, which only affects message text): one summary message per
eligible user, the whole user loop inside a single `try`, so one failed
send (`ch cid = false`) raises out of the loop and the remaining users are
never reached.  `last_notification` is not touched by these loops.  Returns
the chat ids that received their summary and whether the loop completed. -/
def summary_loop (ch : Int → Bool) (mode : NotificationMode)
    (listings : List PropertyData) :
    List (Int × UserPreferences) → List Int × Bool
  | [] => ([], true)
  | (cid, p) :: rest =>
    if p.subscribed && decide (p.notification_mode = mode) then
      let fl := filter_listings listings p.filters
      if fl.isEmpty then summary_loop ch mode listings rest
      else if ch cid then
        let r := summary_loop ch mode listings rest
        (cid :: r.1, r.2)
      else ([], false)
    else summary_loop ch mode listings rest

/-- A Messaging Channel that never raises. -/
def chAllOk : Int → Nat → Bool := fun _ _ => true

/-- Modelled from the spec's words, for comparison with
`send_notifications`: the per-user deliveries the dispatcher produces when
the channel never fails — every subscribed user receives every listing that
matches their filters, regardless of notification mode. -/
def broadcast_events (listings : List PropertyData) :
    List (Int × UserPreferences) → List (Int × Nat)
  | [] => []
  | (cid, p) :: rest =>
    (if p.subscribed then
      (filter_listings listings p.filters).map (fun l => (cid, l.id))
    else []) ++ broadcast_events listings rest

/-! Section: Subscriber registry (`database.py` and the command handlers) -/

/-- A partial preference record, the `preferences` dict handed to
`Database.update_user`: each field optionally overrides the stored one
(`dict.update` merge at the granularity of the record's keys). -/
structure PrefPatch where
  notification_mode : Option NotificationMode := none
  last_notification : Option (Option Nat) := none
  filters : Option Filters := none
  subscribed : Option Bool := none
deriving DecidableEq, Repr

/-- Merge `stored.update(patch)`: a key present in the patch overwrites the stored
value, an absent key leaves it. -/
def applyPatch (p : UserPreferences) (q : PrefPatch) : UserPreferences :=
  { p with
    notification_mode := q.notification_mode.getD p.notification_mode
    last_notification := q.last_notification.getD p.last_notification
    filters := q.filters.getD p.filters
    subscribed := q.subscribed.getD p.subscribed }

/-- Embedding of `Database.get_user`: look the chat id up (`dict.get`). -/
def get_user (users : List (Int × UserPreferences)) (cid : Int) :
    Option UserPreferences :=
  (users.find? (fun u => u.1 = cid)).map (fun u => u.2)

/-- Embedding of `Database.update_user`: `if str(chat_id) in self.users:` merge the
preferences into the existing record; an absent chat id leaves the registry
untouched (no record is created). -/
def update_user (users : List (Int × UserPreferences)) (cid : Int)
    (patch : PrefPatch) : List (Int × UserPreferences) :=
  if users.any (fun u => u.1 = cid) then
    users.map (fun u => if u.1 = cid then (u.1, applyPatch u.2 patch) else u)
  else users

/-- The record `TelegramBot.cmd_start` (and `cmd_subscribe`) creates for a
chat id it has not seen: mode `immediate`, empty filters, and the dataclass
defaults `subscribed=True`, `last_notification=None`. -/
def defaultUser (cid : Int) : UserPreferences :=
  { chat_id := cid
    notification_mode := NotificationMode.immediate
    filters := emptyFilters }

/-- The registry effect of `TelegramBot.cmd_start`: if the chat id is absent
it is bound to the default record; an existing record is left alone. -/
def cmd_start_registry (users : List (Int × UserPreferences)) (cid : Int) :
    List (Int × UserPreferences) :=
  if users.any (fun u => u.1 = cid) then users
  else users ++ [(cid, defaultUser cid)]

/-! Section: Theorems about the filter engine -/

/-- C5: for a listing with price `P`, a filter with `price_max = P - 1` never
matches; with `price_max = P` the listing matches provided no other present
bound fails (the bound is inclusive); and with no price bound present both
price checks pass regardless of `P`. -/
theorem price_bound_inclusive (l : PropertyData) (f : Filters) :
    (f.price_max = some (l.price - 1) → listing_matches l f = false)
    ∧ (f.price_max = some l.price →
        failsPriceMin l f = false → failsAreaMin l f = false →
        failsAreaMax l f = false → failsRoomsMin l f = false →
        failsRoomsMax l f = false → listing_matches l f = true)
    ∧ (f.price_min = none → f.price_max = none →
        failsPriceMin l f = false ∧ failsPriceMax l f = false) := by
  refine ⟨fun h => ?_, fun h h1 h2 h3 h4 h5 => ?_, fun h1 h2 => ?_⟩
  · have hmax : failsPriceMax l f = true := by
      simp only [failsPriceMax, h, decide_eq_true_eq]
      omega
    simp [listing_matches, hmax]
  · have hmax : failsPriceMax l f = false := by
      simp only [failsPriceMax, h, decide_eq_false_iff_not]
      omega
    simp [listing_matches, hmax, h1, h2, h3, h4, h5]
  · constructor
    · simp [failsPriceMin, h1]
    · simp [failsPriceMax, h2]

/-- C5 witness: a concrete listing with price 100 against `price_max = 99`,
`price_max = 100`, and the empty filter. -/
theorem price_bound_inclusive_witness :
    listing_matches { id := 1, url := "", price := 100 } { price_max := some 99 } = false
    ∧ listing_matches { id := 1, url := "", price := 100 } { price_max := some 100 } = true
    ∧ (failsPriceMin { id := 1, url := "", price := 100 } emptyFilters = false
       ∧ failsPriceMax { id := 1, url := "", price := 100 } emptyFilters = false) :=
  ⟨(price_bound_inclusive { id := 1, url := "", price := 100 } { price_max := some 99 }).1
      (by decide),
   (price_bound_inclusive { id := 1, url := "", price := 100 } { price_max := some 100 }).2.1
      rfl rfl rfl rfl rfl rfl,
   (price_bound_inclusive { id := 1, url := "", price := 100 } emptyFilters).2.2 rfl rfl⟩

/-- C6: a listing whose `rooms` field is `None` passes both rooms bound
checks whatever bounds the filter holds, and hence matches whenever the
other present bounds pass. -/
theorem rooms_unset_leniency (l : PropertyData) (f : Filters)
    (h : l.rooms = none) :
    failsRoomsMin l f = false ∧ failsRoomsMax l f = false
    ∧ (failsPriceMin l f = false → failsPriceMax l f = false →
       failsAreaMin l f = false → failsAreaMax l f = false →
       listing_matches l f = true) := by
  have hmin : failsRoomsMin l f = false := by
    unfold failsRoomsMin; rw [h]; cases f.rooms_min <;> rfl
  have hmax : failsRoomsMax l f = false := by
    unfold failsRoomsMax; rw [h]; cases f.rooms_max <;> rfl
  exact ⟨hmin, hmax, fun h1 h2 h3 h4 => by
    simp [listing_matches, hmin, hmax, h1, h2, h3, h4]⟩

/-- C6 witness: a listing with `rooms = None` against a filter demanding
between 2 and 3 rooms. -/
theorem rooms_unset_leniency_witness :
    failsRoomsMin { id := 1, url := "", price := 0 }
        { rooms_min := some 2, rooms_max := some 3 } = false
    ∧ failsRoomsMax { id := 1, url := "", price := 0 }
        { rooms_min := some 2, rooms_max := some 3 } = false
    ∧ listing_matches { id := 1, url := "", price := 0 }
        { rooms_min := some 2, rooms_max := some 3 } = true := by
  have h := rooms_unset_leniency { id := 1, url := "", price := 0 }
    { rooms_min := some 2, rooms_max := some 3 } rfl
  exact ⟨h.1, h.2.1, h.2.2 rfl rfl rfl rfl⟩

/-- C10: the truthiness guard in `_filter_listings` makes a listing whose
`rooms` is `0` (or whose `area` is `0`) bypass the corresponding bound
checks exactly like an unset field, so such a listing can match a filter
whose minimum bound its zero value numerically violates. -/
theorem zero_valued_fields_bypass_bounds (l : PropertyData) (f : Filters) :
    (l.rooms = some 0 → failsRoomsMin l f = false ∧ failsRoomsMax l f = false)
    ∧ (l.area = some 0 → failsAreaMin l f = false ∧ failsAreaMax l f = false)
    ∧ ∃ l0 f0, l0.rooms = some 0 ∧ f0.rooms_min = some 2
        ∧ listing_matches l0 f0 = true := by
  refine ⟨fun h => ⟨?_, ?_⟩, fun h => ⟨?_, ?_⟩,
    ⟨{ id := 1, url := "", price := 0, rooms := some 0 },
     { rooms_min := some 2 }, rfl, rfl, rfl⟩⟩
  · unfold failsRoomsMin; rw [h]; cases f.rooms_min <;> simp
  · unfold failsRoomsMax; rw [h]; cases f.rooms_max <;> simp
  · unfold failsAreaMin; rw [h]; cases f.area_min <;> simp
  · unfold failsAreaMax; rw [h]; cases f.area_max <;> simp

/-- C10 witness: a listing with `rooms = 0` and `area = 0` against a filter
demanding at least 2 rooms and area between 10 and 90. -/
theorem zero_valued_fields_bypass_bounds_witness :
    failsRoomsMin { id := 1, url := "", price := 0, rooms := some 0, area := some 0 }
        { rooms_min := some 2, area_min := some 10, area_max := some 90 } = false
    ∧ failsAreaMin { id := 1, url := "", price := 0, rooms := some 0, area := some 0 }
        { rooms_min := some 2, area_min := some 10, area_max := some 90 } = false := by
  have h := zero_valued_fields_bypass_bounds
    { id := 1, url := "", price := 0, rooms := some 0, area := some 0 }
    { rooms_min := some 2, area_min := some 10, area_max := some 90 }
  exact ⟨(h.1 rfl).1, (h.2.1 rfl).1⟩

/-! Section: Theorems about the fetch cycle's error handling -/

/-- C9: on any Listing Source failure — a raised transport error or a
non-success response — the fetch cycle completes and returns no new
listings, leaving the seen set unchanged.  (`fetch_cycle` is a total
function: no exception can propagate to the scheduler.) -/
theorem source_failure_zero_new_listings (seen : Finset Nat)
    (resp : Except Unit HttpResp)
    (h : resp = Except.error () ∨ ∃ r, resp = Except.ok r ∧ r.ok = false) :
    fetch_cycle resp seen = ([], seen) := by
  rcases h with h | ⟨r, hr, hok⟩
  · subst h; rfl
  · subst hr
    simp [fetch_cycle, get_owner_direct_listings, hok, check_new_listings]

/-- C9 witness: a transport error against an empty seen set, and a 500-class
response against the seen set `{3}`. -/
theorem source_failure_zero_new_listings_witness :
    fetch_cycle (Except.error ()) (∅ : Finset Nat) = ([], (∅ : Finset Nat))
    ∧ fetch_cycle (Except.ok ⟨false, [{ id := 1, url := "", price := 0 }]⟩)
        ({3} : Finset Nat) = ([], ({3} : Finset Nat)) :=
  ⟨source_failure_zero_new_listings ∅ (Except.error ()) (Or.inl rfl),
   source_failure_zero_new_listings {3}
     (Except.ok ⟨false, [{ id := 1, url := "", price := 0 }]⟩)
     (Or.inr ⟨_, rfl, rfl⟩)⟩

/-! Section: Theorems about the seen-set store -/

/-- Whatever `prune_seen` keeps was already present. -/
theorem prune_seen_subset (enum : List Nat) :
    (prune_seen enum).toFinset ⊆ enum.toFinset := by
  unfold prune_seen
  split
  · intro x hx
    rw [List.mem_toFinset] at hx ⊢
    exact (List.drop_sublist _ _).mem hx
  · exact Finset.Subset.refl _

/-- A duplicate-free enumeration of a finite set has the set's cardinality
as its length, and its `toFinset` is the set. -/
theorem IsEnumOf.toFinset_eq {enum : List Nat} {s : Finset Nat}
    (h : IsEnumOf enum s) : enum.toFinset = s :=
  Finset.ext fun x => by rw [List.mem_toFinset]; exact h.2 x

theorem IsEnumOf.length_eq {enum : List Nat} {s : Finset Nat}
    (h : IsEnumOf enum s) : enum.length = s.card := by
  rw [← h.toFinset_eq, List.toFinset_card_of_nodup h.1]

/-- One `mark_seen` call always leaves at most `SEEN_CAP` ids. -/
theorem mark_seen_rel_card_le (s s' : Finset Nat) (id : Nat)
    (h : mark_seen_rel s id s') : s'.card ≤ SEEN_CAP := by
  obtain ⟨enum, henum, hs'⟩ := h
  subst hs'
  unfold prune_seen
  split
  case isTrue hlen =>
    calc (enum.drop (enum.length - SEEN_CAP)).toFinset.card
        ≤ (enum.drop (enum.length - SEEN_CAP)).length :=
          List.toFinset_card_le _
      _ ≤ SEEN_CAP := by rw [List.length_drop]; omega
  case isFalse hlen =>
    calc enum.toFinset.card ≤ enum.length := List.toFinset_card_le _
      _ ≤ SEEN_CAP := by omega

/-- C4: starting from a seen set of at most 10000 ids, any finite sequence
of `mark_seen` calls leaves at most 10000 ids, and the pruning step only
ever retains elements that were present before it ran. -/
theorem seen_set_cap_invariant (s s' : Finset Nat) (ids : List Nat)
    (h0 : s.card ≤ SEEN_CAP) (h : mark_seen_chain s ids s') :
    s'.card ≤ SEEN_CAP
    ∧ ∀ enum : List Nat, (prune_seen enum).toFinset ⊆ enum.toFinset := by
  refine ⟨?_, fun enum => prune_seen_subset enum⟩
  induction ids generalizing s with
  | nil => rw [show s' = s from h]; exact h0
  | cons id rest ih =>
    obtain ⟨t, hrel, hchain⟩ := h
    exact ih t (mark_seen_rel_card_le s t id hrel) hchain

/-- C4 witness: marking id 5 on the empty seen set. -/
theorem seen_set_cap_invariant_witness :
    ({5} : Finset Nat).card ≤ SEEN_CAP :=
  (seen_set_cap_invariant ∅ {5} [5] (by decide)
    ⟨{5}, ⟨[5], ⟨by decide, fun x => by simp⟩, by decide⟩, rfl⟩).1

/-- Membership in `(List.range (n+1)).drop 1`: exactly the ids `1..n`. -/
theorem mem_drop_one_range (n x : Nat) :
    x ∈ (List.range (n + 1)).drop 1 ↔ 1 ≤ x ∧ x < n + 1 := by
  rw [List.range_succ_eq_map, List.drop_succ_cons, List.drop_zero]
  simp only [List.mem_map, List.mem_range]
  constructor
  · rintro ⟨a, ha, rfl⟩
    omega
  · rintro ⟨h1, h2⟩
    exact ⟨x - 1, by omega, by omega⟩

/-- Slicing an 10001-element enumeration keeps its last 10000 entries. -/
theorem prune_seen_range_10001 :
    prune_seen (List.range 10001) = (List.range 10001).drop 1 := by
  unfold prune_seen
  rw [List.length_range]
  norm_num [SEEN_CAP]

/-- C3 counterexample: with the seen set holding ids 1..10000, marking the
fresh id 0 along the enumeration `0, 1, …, 10000` prunes id 0 away, so
`is_seen` is `false` for the id just marked.  (Python specifies no order for
`list(set)`, so this enumeration is among the behaviours of
`Database.mark_seen`.) -/
theorem mark_seen_can_evict_fresh_id :
    mark_seen_rel ((List.range 10001).drop 1).toFinset 0
      ((List.range 10001).drop 1).toFinset
    ∧ is_seen ((List.range 10001).drop 1).toFinset 0 = false := by
  constructor
  · refine ⟨List.range 10001, ⟨List.nodup_range _, fun x => ?_⟩, ?_⟩
    · rw [List.mem_range, Finset.mem_insert, List.mem_toFinset,
        mem_drop_one_range]
      omega
    · rw [prune_seen_range_10001]
  · simp only [is_seen, decide_eq_false_iff_not, List.mem_toFinset,
      mem_drop_one_range]
    omega

/-- C3 amended: immediately after `mark_seen(id)`, `is_seen(id)` is `true`
provided the set after insertion is within the 10000 cap, so that the
pruning slice does not run; an over-cap insertion may evict the id just
marked (see the counterexample). -/
theorem mark_seen_fresh_id_retained_under_cap (s s' : Finset Nat) (id : Nat)
    (hcard : (insert id s).card ≤ SEEN_CAP) (h : mark_seen_rel s id s') :
    is_seen s' id = true := by
  obtain ⟨enum, henum, hs'⟩ := h
  have hlen : enum.length ≤ SEEN_CAP := by
    rw [henum.length_eq]; exact hcard
  have hp : prune_seen enum = enum := by
    unfold prune_seen; rw [if_neg]; omega
  subst hs'
  rw [hp, henum.toFinset_eq]
  simp [is_seen]

/-- C3 witness: marking id 0 on the two-element seen set `{1}`. -/
theorem mark_seen_fresh_id_retained_under_cap_witness :
    is_seen (insert 0 ({1} : Finset Nat)) 0 = true :=
  mark_seen_fresh_id_retained_under_cap {1} (insert 0 {1}) 0 (by decide)
    ⟨[0, 1], ⟨by decide, fun x => by simp⟩, by decide⟩

/-! Section: Theorems about the fetch cycle's dedup loop -/

/-- The dedup loop marks every incoming id seen, new or not. -/
theorem check_new_listings_seen_eq (s : Finset Nat) (ls : List PropertyData) :
    (check_new_listings s ls).2 = s ∪ (ls.map (fun l => l.id)).toFinset := by
  induction ls generalizing s with
  | nil => simp [check_new_listings]
  | cons l rest ih =>
    by_cases h : l.id ∈ s
    · rw [show check_new_listings s (l :: rest) = check_new_listings s rest
          from by simp [check_new_listings, h], ih]
      ext x
      simp only [Finset.mem_union, List.mem_toFinset, List.map_cons,
        List.mem_cons]
      constructor
      · rintro (hx | hx)
        · exact Or.inl hx
        · exact Or.inr (Or.inr hx)
      · rintro (hx | hx | hx)
        · exact Or.inl hx
        · exact Or.inl (hx ▸ h)
        · exact Or.inr hx
    · rw [show (check_new_listings s (l :: rest)).2
            = (check_new_listings (insert l.id s) rest).2
          from by simp [check_new_listings, h], ih]
      ext x
      simp only [Finset.mem_union, Finset.mem_insert, List.mem_toFinset,
        List.map_cons, List.mem_cons]
      tauto

/-- The new-listing accumulator only looks at ids through membership, so two
seen sets that agree on the batch's ids produce the same accumulator. -/
theorem check_new_listings_congr (s s' : Finset Nat) (ls : List PropertyData)
    (h : ∀ l ∈ ls, (l.id ∈ s ↔ l.id ∈ s')) :
    (check_new_listings s ls).1 = (check_new_listings s' ls).1 := by
  induction ls generalizing s s' with
  | nil => rfl
  | cons l rest ih =>
    have hl := h l (List.mem_cons_self l rest)
    have hrest : ∀ x ∈ rest, (x.id ∈ s ↔ x.id ∈ s') :=
      fun x hx => h x (List.mem_cons_of_mem l hx)
    by_cases hm : l.id ∈ s
    · have hm' : l.id ∈ s' := hl.mp hm
      simp only [check_new_listings, if_pos hm, if_pos hm']
      exact ih s s' hrest
    · have hm' : l.id ∉ s' := fun hc => hm (hl.mpr hc)
      simp only [check_new_listings, if_neg hm, if_neg hm']
      rw [ih (insert l.id s) (insert l.id s') (fun x hx => by
        simp only [Finset.mem_insert]
        exact or_congr Iff.rfl (hrest x hx))]

/-- Once every incoming id is already seen, the loop reports nothing new. -/
theorem check_new_listings_all_seen (s : Finset Nat) (ls : List PropertyData)
    (h : ∀ l ∈ ls, l.id ∈ s) :
    (check_new_listings s ls).1 = [] := by
  induction ls with
  | nil => rfl
  | cons l rest ih =>
    simp only [check_new_listings, if_pos (h l (List.mem_cons_self l rest))]
    exact ih fun x hx => h x (List.mem_cons_of_mem l hx)

/-- C7 counterexample: a batch carrying the same id twice.  The dedup loop
returns the first occurrence only, while "the sub-sequence of listings whose
ids were not in the seen-set at the start of the cycle" is the whole batch. -/
theorem dup_ids_in_batch_counted_once :
    (check_new_listings ∅
      [{ id := 1, url := "", price := 0 }, { id := 1, url := "", price := 0 }]).1
      = [{ id := 1, url := "", price := 0 }]
    ∧ (check_new_listings ∅
        [{ id := 1, url := "", price := 0 }, { id := 1, url := "", price := 0 }]).1
      ≠ [{ id := 1, url := "", price := 0 },
         { id := 1, url := "", price := 0 }].filter
          (fun l => decide (l.id ∉ (∅ : Finset Nat))) := by
  constructor
  · rfl
  · intro hc
    simp only [List.filter] at hc
    exact absurd (congrArg List.length hc) (by decide)

/-- C7 amended: on a batch whose ids are pairwise distinct, the dedup loop
returns exactly the listings whose ids were not seen at the start of the
cycle, marks every incoming id seen, and a second run of the loop on the
same batch returns nothing. -/
theorem fetch_cycle_returns_unseen (s : Finset Nat) (ls : List PropertyData)
    (hnd : (ls.map (fun l => l.id)).Nodup) :
    (check_new_listings s ls).1 = ls.filter (fun l => decide (l.id ∉ s))
    ∧ (check_new_listings s ls).2 = s ∪ (ls.map (fun l => l.id)).toFinset
    ∧ (check_new_listings (check_new_listings s ls).2 ls).1 = [] := by
  refine ⟨?_, check_new_listings_seen_eq s ls, ?_⟩
  · induction ls generalizing s with
    | nil => rfl
    | cons l rest ih =>
      simp only [List.map_cons, List.nodup_cons] at hnd
      obtain ⟨hnotin, hnd'⟩ := hnd
      by_cases hm : l.id ∈ s
      · rw [show (check_new_listings s (l :: rest)).1
              = (check_new_listings s rest).1
            from by simp [check_new_listings, hm]]
        rw [List.filter_cons_of_neg (by simp [hm])]
        exact ih s hnd'
      · rw [show (check_new_listings s (l :: rest)).1
              = l :: (check_new_listings (insert l.id s) rest).1
            from by simp [check_new_listings, hm]]
        rw [List.filter_cons_of_pos (by simp [hm])]
        rw [check_new_listings_congr (insert l.id s) s rest (fun x hx => by
          simp only [Finset.mem_insert]
          have hne : x.id ≠ l.id := fun he =>
            hnotin (he ▸ List.mem_map_of_mem (fun l => l.id) hx)
          tauto)]
        rw [ih s hnd']
  · apply check_new_listings_all_seen
    intro l hl
    rw [check_new_listings_seen_eq s ls]
    exact Finset.mem_union_right s
      (List.mem_toFinset.mpr (List.mem_map_of_mem (fun l => l.id) hl))

/-- C7 witness: two distinct-id listings against the seen set `{2}`: only
id 1 comes back new, both end up seen, and a re-run returns nothing. -/
theorem fetch_cycle_returns_unseen_witness :
    (check_new_listings ({2} : Finset Nat)
      [{ id := 1, url := "", price := 0 }, { id := 2, url := "", price := 0 }]).1
      = [{ id := 1, url := "", price := 0 }]
    ∧ (check_new_listings (check_new_listings ({2} : Finset Nat)
        [{ id := 1, url := "", price := 0 }, { id := 2, url := "", price := 0 }]).2
        [{ id := 1, url := "", price := 0 }, { id := 2, url := "", price := 0 }]).1
      = [] := by
  have h := fetch_cycle_returns_unseen ({2} : Finset Nat)
    [{ id := 1, url := "", price := 0 }, { id := 2, url := "", price := 0 }]
    (by decide)
  refine ⟨?_, h.2.2⟩
  rw [h.1]
  rfl

/-! Section: Theorems about the notification dispatcher -/

/-- Against a channel that never raises, the per-user send loop delivers
every listing and completes. -/
theorem send_loop_all_ok (cid : Int) (ls : List PropertyData) :
    send_loop chAllOk cid ls = (ls.map (fun l => (cid, l.id)), true) := by
  induction ls with
  | nil => rfl
  | cons l rest ih => simp [send_loop, chAllOk, ih]

/-- C1 counterexample: the interval trigger's dispatcher,
`_send_notifications`, delivers the new listing to a subscriber whose
`notification_mode` is `daily` — the mode is never consulted on that path. -/
theorem immediate_dispatch_reaches_daily_subscriber :
    ({ chat_id := 7, notification_mode := NotificationMode.daily }
        : UserPreferences).notification_mode = NotificationMode.daily
    ∧ ({ chat_id := 7, notification_mode := NotificationMode.daily }
        : UserPreferences).subscribed = true
    ∧ (send_notifications chAllOk 0 [{ id := 5, url := "", price := 60000 }]
        [(7, { chat_id := 7, notification_mode := NotificationMode.daily })]).1
      = [(7, 5)] :=
  ⟨rfl, rfl, rfl⟩

/-- C1 amended: when the interval trigger fires with new listings and the
channel raises nothing, `_send_notifications` delivers to every subscribed
user whose filter matches, regardless of notification mode — the dispatch is
the mode-blind `broadcast_events`. -/
theorem send_notifications_ignore_mode (now : Nat)
    (listings : List PropertyData) (users : List (Int × UserPreferences)) :
    (send_notifications chAllOk now listings users).1
      = broadcast_events listings users := by
  induction users with
  | nil => rfl
  | cons u rest ih =>
    obtain ⟨cid, p⟩ := u
    by_cases hs : p.subscribed
    · cases hfl : filter_listings listings p.filters with
      | nil => simp [send_notifications, broadcast_events, hs, hfl, ih]
      | cons a as =>
        simp [send_notifications, broadcast_events, hs, hfl, ih,
          send_loop_all_ok]
    · simp [send_notifications, broadcast_events, hs, ih]

/-- C2 counterexample: three subscribed daily-mode users all matching the
new listing; the channel fails on the second.  The daily summary loop runs
inside one `try`, so the failure aborts it: only the first user is served
and the third — subscribed, daily, matching — receives nothing. -/
theorem daily_summary_failure_aborts_rest :
    (summary_loop (fun cid => !(decide (cid = 2))) NotificationMode.daily
        [{ id := 5, url := "", price := 60000 }]
        [(1, { chat_id := 1, notification_mode := NotificationMode.daily }),
         (2, { chat_id := 2, notification_mode := NotificationMode.daily }),
         (3, { chat_id := 3, notification_mode := NotificationMode.daily })]).1
      = [1]
    ∧ ({ chat_id := 3, notification_mode := NotificationMode.daily }
        : UserPreferences).subscribed = true
    ∧ listing_matches { id := 5, url := "", price := 60000 }
        ({ chat_id := 3, notification_mode := NotificationMode.daily }
          : UserPreferences).filters = true :=
  ⟨rfl, rfl, rfl⟩

/-- C2 amended: per-subscriber failure isolation holds on the
`_send_notifications` path: the dispatch over a subscriber sequence is the
concatenation of independent per-subscriber dispatches, and a single
subscriber's outcome is exactly "deliver the matches while the channel
holds; stamp `last_notification` only if subscribed with a non-empty match
and an unbroken send loop".  (The daily and weekly summary loops do not
enjoy this — see the counterexample.) -/
theorem send_notifications_per_user_isolation (ch : Int → Nat → Bool)
    (now : Nat) (listings : List PropertyData) :
    (∀ us1 us2 : List (Int × UserPreferences),
      send_notifications ch now listings (us1 ++ us2)
        = ((send_notifications ch now listings us1).1
             ++ (send_notifications ch now listings us2).1,
           (send_notifications ch now listings us1).2
             ++ (send_notifications ch now listings us2).2))
    ∧ (∀ (cid : Int) (p : UserPreferences),
        send_notifications ch now listings [(cid, p)]
          = ((if p.subscribed
              then (send_loop ch cid (filter_listings listings p.filters)).1
              else []),
             [(cid,
               if p.subscribed
                  && !(filter_listings listings p.filters).isEmpty
                  && (send_loop ch cid (filter_listings listings p.filters)).2
               then { p with last_notification := some now } else p)])) := by
  constructor
  · intro us1 us2
    induction us1 with
    | nil => simp [send_notifications]
    | cons u us1' ih =>
      obtain ⟨cid, p⟩ := u
      by_cases hs : p.subscribed
      · cases hfl : filter_listings listings p.filters with
        | nil => simp [send_notifications, hs, hfl, ih]
        | cons a as => simp [send_notifications, hs, hfl, ih]
      · simp [send_notifications, hs, ih]
  · intro cid p
    by_cases hs : p.subscribed
    · cases hfl : filter_listings listings p.filters with
      | nil => simp [send_notifications, send_loop, hs, hfl]
      | cons a as => simp [send_notifications, hs, hfl]
    · simp [send_notifications, hs]

/-! Section: Theorems about the subscriber registry -/

/-- A chat id is absent from the registry exactly when the `in`-test of
`update_user` is false. -/
theorem get_user_none_iff (users : List (Int × UserPreferences)) (cid : Int) :
    get_user users cid = none ↔ users.any (fun u => u.1 = cid) = false := by
  induction users with
  | nil => simp [get_user]
  | cons u rest ih =>
    by_cases hu : u.1 = cid
    · simp [get_user, List.find?_cons, hu]
    · rw [show get_user (u :: rest) cid = get_user rest cid from by
        simp [get_user, List.find?_cons, hu]]
      rw [show (u :: rest).any (fun x => x.1 = cid)
            = rest.any (fun x => x.1 = cid) from by simp [hu]]
      exact ih

/-- Looking up `cid` after patching every `cid`-keyed record patches the
looked-up record. -/
theorem get_user_map_patch (users : List (Int × UserPreferences)) (cid : Int)
    (patch : PrefPatch) :
    get_user (users.map
        (fun u => if u.1 = cid then (u.1, applyPatch u.2 patch) else u)) cid
      = (get_user users cid).map (fun p => applyPatch p patch) := by
  induction users with
  | nil => rfl
  | cons u rest ih =>
    by_cases hu : u.1 = cid
    · simp [get_user, List.find?_cons, hu]
    · simpa [get_user, List.find?_cons, hu] using ih

/-- A lookup that misses the whole left part of an appended registry
continues in the right part. -/
theorem get_user_append_of_none (users extra : List (Int × UserPreferences))
    (cid : Int) (h : get_user users cid = none) :
    get_user (users ++ extra) cid = get_user extra cid := by
  induction users with
  | nil => rfl
  | cons u rest ih =>
    by_cases hu : u.1 = cid
    · exfalso
      simp [get_user, List.find?_cons, hu] at h
    · rw [show get_user ((u :: rest) ++ extra) cid
            = get_user (rest ++ extra) cid from by
          simp [get_user, List.find?_cons, hu]]
      apply ih
      rw [show get_user rest cid = get_user (u :: rest) cid from by
        simp [get_user, List.find?_cons, hu]]
      exact h

/-- C8 amended: `Database.update_user` merges the given partial preferences
into an existing record — the post-update lookup returns the patched record
— but creates nothing for an absent chat id: the registry is returned
unchanged.  The default record (`notification_mode=immediate`, empty
filters, `subscribed=true`) is created for an absent chat id only by the
`/start` handler, which does not merge the given preferences. -/
theorem update_user_merge_no_create (users : List (Int × UserPreferences))
    (cid : Int) (patch : PrefPatch) :
    get_user (update_user users cid patch) cid
      = (get_user users cid).map (fun p => applyPatch p patch)
    ∧ (get_user users cid = none →
        update_user users cid patch = users
        ∧ get_user (cmd_start_registry users cid) cid
            = some (defaultUser cid)) := by
  constructor
  · unfold update_user
    by_cases hany : users.any (fun u => u.1 = cid) = true
    · rw [if_pos hany]
      exact get_user_map_patch users cid patch
    · rw [if_neg hany]
      rw [(get_user_none_iff users cid).mpr (Bool.eq_false_iff.mpr hany)]
      rfl
  · intro hnone
    have hany : users.any (fun u => u.1 = cid) = false :=
      (get_user_none_iff users cid).mp hnone
    refine ⟨?_, ?_⟩
    · unfold update_user
      rw [if_neg (by rw [hany]; simp)]
    · unfold cmd_start_registry
      rw [if_neg (by rw [hany]; simp)]
      rw [get_user_append_of_none users _ cid hnone]
      simp [get_user, List.find?_cons]

/-- C8 counterexample: upserting preferences for chat id 1 into the empty
registry creates nothing — the registry stays empty and the lookup still
misses, where the claim promises a default record merged with the given
preferences. -/
theorem update_user_absent_chat_noop :
    update_user [] 1 { subscribed := some false } = []
    ∧ get_user (update_user [] 1 { subscribed := some false }) 1 = none :=
  ⟨rfl, rfl⟩

/-- C8 witness: the amended claim at the empty registry and chat id 1. -/
theorem update_user_merge_no_create_witness :
    update_user [] 1 { subscribed := some false } = ([] : List (Int × UserPreferences))
    ∧ get_user (cmd_start_registry [] 1) 1 = some (defaultUser 1) :=
  (update_user_merge_no_create [] 1 { subscribed := some false }).2 rfl
